import Mathlib

/-!
Verification development for the AI-Web_Scraper repository (`app.py`).

The core under study is `extract_visible_text` (app.py lines 69-118): it
parses HTML into a DOM, removes noise elements, collects social-media
links, walks `soup.body.descendants` grouping container text under the
nearest preceding heading, and assembles the final structured document.
We embed the parsed-DOM data model and every step of that pipeline, plus
the URL-validation handler (lines 184-206) and the GPT cleaning function
`clean_and_structure_text` (lines 121-150).

String primitives are modelled on the character list of a `String`, so
that every definition evaluates by kernel reduction: `pyStrip` is
Python's `str.strip()` (and the `strip=True` of bs4), `pyUpper` is
`str.upper()` (ASCII case mapping), `pyStartsWith` is `str.startswith`,
and `charListLE` is Python's lexicographic code-point comparison used by
`sorted`.
-/

namespace AIWebScraper

/-- Python `str.strip()` on a character list: drop whitespace from both
ends. -/
def trimChars (l : List Char) : List Char :=
  ((l.dropWhile Char.isWhitespace).reverse.dropWhile Char.isWhitespace).reverse

/-- Python `str.strip()` / the per-fragment stripping of bs4's
`get_text(strip=True)`. -/
def pyStrip (s : String) : String := ⟨trimChars s.data⟩

/-- Python `str.upper()` (character-wise case mapping). -/
def pyUpper (s : String) : String := ⟨s.data.map Char.toUpper⟩

/-- Python `str.startswith`. -/
def pyStartsWith (s p : String) : Bool := p.data.isPrefixOf s.data

/-- Python's `<=` on strings restricted to code points: lexicographic
comparison of the two character sequences, as used by `sorted`. -/
def charListLE : List Char → List Char → Bool
  | [], _ => true
  | _ :: _, [] => false
  | a :: as, b :: bs =>
    if a.toNat < b.toNat then true
    else if b.toNat < a.toNat then false
    else charListLE as bs

/-- Python's `<=` on strings, as a proposition. -/
def pyLE (s t : String) : Prop := charListLE s.data t.data = true

instance (s t : String) : Decidable (pyLE s t) :=
  inferInstanceAs (Decidable (charListLE s.data t.data = true))

/-- A parsed DOM node, as produced by BeautifulSoup: either a text node
(`NavigableString`, whose `.name` is `None`) or an element (`Tag`) with a
tag name, attributes (notably `href` for anchors) and ordered children. -/
inductive Node where
  | text (s : String)
  | elem (tag : String) (attrs : List (String × String)) (children : List Node)

mutual
/-- All descendants of a node in document (pre-)order, excluding the node
itself — the order in which bs4's `.descendants` yields nodes. -/
def descendants : Node → List Node
  | .text _ => []
  | .elem _ _ cs => descList cs
termination_by structural n => n
/-- Descendant traversal of a forest: each root followed by its own
descendants, left to right. -/
def descList : List Node → List Node
  | [] => []
  | c :: cs => c :: (descendants c ++ descList cs)
termination_by structural ns => ns
end

mutual
/-- The stripped, non-empty text fragments below a node, in document
order: bs4's `_all_strings(strip=True)`, which `get_text(strip=True)`
joins with the empty separator. -/
def strippedStrings : Node → List String
  | .text s => if pyStrip s = "" then [] else [pyStrip s]
  | .elem _ _ cs => strippedStringsList cs
termination_by structural n => n
/-- `strippedStrings` over a forest. -/
def strippedStringsList : List Node → List String
  | [] => []
  | c :: cs => strippedStrings c ++ strippedStringsList cs
termination_by structural ns => ns
end

/-- `element.get_text(strip=True)`: concatenation of the stripped
non-empty text fragments below the element. -/
def get_text_strip (n : Node) : String := String.join (strippedStrings n)

/-- Attribute lookup on a tag's attribute list (`a["href"]` / `href=True`). -/
def attrVal (attrs : List (String × String)) (key : String) : Option String :=
  (attrs.find? (fun p => p.1 = key)).map (fun p => p.2)

/-- The fixed denylist of app.py line 77. -/
def noiseTags : List String :=
  ["script", "style", "header", "footer", "nav", "form", "noscript", "svg",
   "aside", "dialog", "iframe"]

/-- Whether a node is an element whose tag is in the denylist. -/
def isNoise : Node → Bool
  | .text _ => false
  | .elem tag _ _ => noiseTags.contains tag

mutual
/-- The `tag.decompose()` loop of app.py lines 77-78, which excises every
denylisted element together with its whole subtree.  `find_all` never
matches the root object itself, so the root is kept. -/
def removeNoise : Node → Node
  | .text s => .text s
  | .elem t a cs => .elem t a (removeNoiseList cs)
termination_by structural n => n
/-- Noise removal over a forest: denylisted roots are dropped whole,
other roots are kept and filtered recursively. -/
def removeNoiseList : List Node → List Node
  | [] => []
  | c :: cs => (if isNoise c then [] else [removeNoise c]) ++ removeNoiseList cs
termination_by structural ns => ns
end

/-- The fixed social-platform domain markers of app.py line 81. -/
def social_domains : List String :=
  ["facebook.com", "twitter.com", "linkedin.com", "instagram.com",
   "youtube.com", "t.me", "wa.me"]

/-- Python's `domain in href` substring test: the marker's characters
occur contiguously inside the href's characters. -/
def containsSub (href pat : String) : Bool := decide (pat.data <:+: href.data)

/-- `any(domain in a["href"] for domain in social_domains)` (line 84). -/
def hrefIsSocial (href : String) : Bool :=
  social_domains.any (fun d => containsSub href d)

/-- The href of a node, when it is an anchor element carrying one
(`find_all("a", href=True)` membership, line 83). -/
def anchorHref : Node → Option String
  | .text _ => none
  | .elem t attrs _ => if t = "a" then attrVal attrs "href" else none

/-- The loop of app.py lines 83-85: hrefs of all anchors in the
(already noise-filtered) document that match a social domain marker,
each stripped before insertion, in document order and with duplicates
still present (the Python `set` removes them; see `sortedSocialLinks`). -/
def social_links (soup : Node) : List String :=
  (((descendants soup).filterMap anchorHref).filter hrefIsSocial).map pyStrip

/-- `sorted(social_links)` (line 109): the elements of the Python `set`
(modelled by `dedup`) in ascending lexicographic code-point order. -/
def sortedSocialLinks (soup : Node) : List String :=
  List.insertionSort pyLE (social_links soup).dedup

/-- Heading tag names (app.py line 92). -/
def heading_tags : List String := ["h1", "h2", "h3", "h4", "h5", "h6"]

/-- Text-bearing container tag names (app.py line 97). -/
def container_tags : List String := ["p", "li", "div", "span"]

/-- `element.name in ['h1',...,'h6']`; text nodes have no name and never
match. -/
def isHeading : Node → Bool
  | .text _ => false
  | .elem t _ _ => heading_tags.contains t

/-- `element.name in ['p', 'li', 'div', 'span']`. -/
def isContainer : Node → Bool
  | .text _ => false
  | .elem t _ _ => container_tags.contains t

/-- The walker's mutable state (app.py lines 87-89): accumulated
formatted blocks, the heading currently in force (a bs4 `Tag` is always
truthy, so only presence matters in `if current_heading and block`), and
the pending block fragments. -/
structure WalkState where
  content_blocks : List String
  current_heading : Option Node
  block : List String

/-- One flushed heading block (lines 94 and 103):
`f"=== {heading.get_text(strip=True).upper()} ===\n{' '.join(block).strip()}"`. -/
def headingBlock (h : Node) (blk : List String) : String :=
  "=== " ++ pyUpper (get_text_strip h) ++ " ===\n" ++ pyStrip (String.intercalate " " blk)

/-- The blocks flushed by `if current_heading and block:` (lines 93-94):
one formatted heading block exactly when a heading is in force and the
pending block is non-empty (a bs4 `Tag` is always truthy). -/
def flushes (cur : Option Node) (blk : List String) : List String :=
  match cur, blk with
  | some h, _ :: _ => [headingBlock h blk]
  | _, _ => []

/-- One iteration of the `for element in soup.body.descendants` loop
(lines 91-100). -/
def walkStep (st : WalkState) (element : Node) : WalkState :=
  if isHeading element then
    ⟨st.content_blocks ++ flushes st.current_heading st.block, some element, []⟩
  else if isContainer element then
    let t := get_text_strip element
    if t = "" then st else ⟨st.content_blocks, st.current_heading, st.block ++ [t]⟩
  else st

/-- The post-loop flush (lines 102-105): a final heading block when a
heading is in force and the block is non-empty, otherwise the residual
newline-joined unlabeled block when text was collected before any
heading. -/
def finalFlush (cur : Option Node) (blk : List String) : List String :=
  match cur, blk with
  | some h, _ :: _ => [headingBlock h blk]
  | none, _ :: _ => [pyStrip (String.intercalate "\n" blk)]
  | _, _ => []

/-- The accumulated blocks together with the post-loop flush. -/
def finalBlocks (st : WalkState) : List String :=
  st.content_blocks ++ finalFlush st.current_heading st.block

/-- The content blocks produced by walking `body.descendants`
(lines 87-105), before the social-links block is appended. -/
def contentBlocks (body : Node) : List String :=
  finalBlocks ((descendants body).foldl walkStep ⟨[], none, []⟩)

/-- Recursion form of the walker: the blocks emitted while processing
the remaining nodes from a given loop state, including the post-loop
flush.  `finalBlocks_foldl` proves it equal to the `foldl` over
`walkStep`. -/
def walkFrom (cur : Option Node) (blk : List String) : List Node → List String
  | [] => finalFlush cur blk
  | n :: ns =>
    if isHeading n then flushes cur blk ++ walkFrom (some n) [] ns
    else if isContainer n then
      (if get_text_strip n = "" then walkFrom cur blk ns
       else walkFrom cur (blk ++ [get_text_strip n]) ns)
    else walkFrom cur blk ns

/-- The text the walker's container branch (lines 97-100) appends for a
node: its stripped text when the node is a text-bearing container with
non-empty text, nothing otherwise. -/
def containerText? (n : Node) : Option String :=
  if isContainer n then
    (if get_text_strip n = "" then none else some (get_text_strip n))
  else none

/-- The texts appended to pending blocks over a whole traversal, in
visit order. -/
def appendedTexts (ns : List Node) : List String := ns.filterMap containerText?

/-- The container texts of a traversal up to (not including) the first
heading: the segment of text grouped under the current heading. -/
def preTexts : List Node → List String
  | [] => []
  | n :: ns =>
    if isHeading n then []
    else match containerText? n with
      | some t => t :: preTexts ns
      | none => preTexts ns

/-- Document-order decomposition of a traversal into headings, each
paired with the container texts that follow it before the next
heading. -/
def headSegs : List Node → List (Node × List String)
  | [] => []
  | n :: ns => if isHeading n then (n, preTexts ns) :: headSegs ns else headSegs ns

/-- The blocks the walker emits for a heading decomposition: one
formatted block per heading whose following text is non-empty, in
document order. -/
def emitSegs (segs : List (Node × List String)) : List String :=
  (segs.filter (fun p => !p.2.isEmpty)).map (fun p => headingBlock p.1 p.2)

/-- `soup.body`: the first element named `body` among the document's
descendants (the soup root itself is the `[document]` object). -/
def findBody (soup : Node) : Option Node :=
  (descendants soup).find? (fun n =>
    match n with
    | .elem t _ _ => t = "body"
    | .text _ => false)

/-- Lines 108-110: the social-links block appended after all content
blocks when the link set is non-empty, its links sorted one per line. -/
def socialTail (soup : Node) : List String :=
  if (sortedSocialLinks soup).isEmpty then []
  else ["=== SOCIAL MEDIA LINKS ===\n" ++
          String.intercalate "\n" (sortedSocialLinks soup)]

/-- Lines 87-113 on an already noise-filtered soup: walk the body,
append the social-links block if any, and join the non-empty blocks
with blank lines (`"\n\n".join(filter(None, content_blocks))`).
`none` models `soup.body` being `None`, in which case `.descendants`
raises `AttributeError`. -/
def assembleDoc (soup : Node) : Option String :=
  match findBody soup with
  | none => none
  | some body =>
    some (String.intercalate "\n\n"
      ((contentBlocks body ++ socialTail soup).filter (fun b => b ≠ "")))

/-- Outcome of the `requests.get` + `BeautifulSoup` boundary feeding
`extract_visible_text`: a successfully fetched and parsed document, a
`requests.exceptions.RequestException` (network/transport failure or
`raise_for_status`), or any other exception raised before the walk. -/
inductive FetchOutcome where
  | success (doc : Node)
  | requestError (msg : String)
  | otherError (msg : String)

/-- The scraping pipeline on a successfully parsed document (lines
74-113): noise removal first, then link collection and the body walk on
the filtered tree; a missing `body` raises `AttributeError`, caught by
the broad `except Exception` handler (lines 117-118). -/
def scrapeDoc (doc : Node) : String :=
  match assembleDoc (removeNoise doc) with
  | some s => s
  | none =>
    "ERROR: An unexpected error occurred during scraping: " ++
      "'NoneType' object has no attribute 'descendants'"

/-- `extract_visible_text` (lines 69-118): every failure of the fetch or
of the parse/walk is converted to an `ERROR:`-prefixed string by the two
`except` clauses; the function never lets an exception escape. -/
def extract_visible_text : FetchOutcome → String
  | .success doc => scrapeDoc doc
  | .requestError e => "ERROR: Failed to scrape the page: " ++ e
  | .otherError e => "ERROR: An unexpected error occurred during scraping: " ++ e

/-- Whether the boundary feeding `extract_visible_text` failed: a raised
request/other exception, or a parsed document whose (noise-filtered)
tree has no `body` element, making `soup.body.descendants` raise. -/
def fetchFailed : FetchOutcome → Bool
  | .success doc => (findBody (removeNoise doc)).isNone
  | .requestError _ => true
  | .otherError _ => true

mutual
/-- The stripped text fragments below a node that lie outside every
denylisted subtree, read off the ORIGINAL tree: the text content the
noise filter is meant to keep. -/
def cleanStrings : Node → List String
  | .text s => if pyStrip s = "" then [] else [pyStrip s]
  | .elem _ _ cs => cleanStringsList cs
termination_by structural n => n
/-- `cleanStrings` over a forest: denylisted roots contribute nothing. -/
def cleanStringsList : List Node → List String
  | [] => []
  | c :: cs => (if isNoise c then [] else cleanStrings c) ++ cleanStringsList cs
termination_by structural ns => ns
end

mutual
/-- The anchor hrefs among a node's descendants that lie outside every
denylisted subtree, read off the ORIGINAL tree: the hrefs the link
collector may see after noise removal. -/
def cleanHrefsNode : Node → List String
  | .text _ => []
  | .elem _ _ cs => cleanHrefsList cs
termination_by structural n => n
/-- `cleanHrefsNode` over a forest: denylisted roots contribute nothing;
a kept root contributes its own href (if an anchor) then its subtree's. -/
def cleanHrefsList : List Node → List String
  | [] => []
  | c :: cs =>
    (if isNoise c then [] else (anchorHref c).toList ++ cleanHrefsNode c) ++
      cleanHrefsList cs
termination_by structural ns => ns
end

/-! ### Concrete documents used to instantiate the theorems -/

/-- The spec's worked example:
`<body><h2>Overview</h2><p>Hello</p><p>World</p><a href="https://twitter.com/x">tw</a></body>`. -/
def exDoc2 : Node :=
  .elem "[document]" [] [.elem "body" []
    [.elem "h2" [] [.text "Overview"],
     .elem "p" [] [.text "Hello"],
     .elem "p" [] [.text "World"],
     .elem "a" [("href", "https://twitter.com/x")] [.text "tw"]]]

/-- The body of `exDoc2`. -/
def exBody2 : Node :=
  .elem "body" []
    [.elem "h2" [] [.text "Overview"],
     .elem "p" [] [.text "Hello"],
     .elem "p" [] [.text "World"],
     .elem "a" [("href", "https://twitter.com/x")] [.text "tw"]]

/-- The spec's no-heading example body: `<body><p>Just text</p></body>`. -/
def exBody5 : Node := .elem "body" [] [.elem "p" [] [.text "Just text"]]

/-- Document wrapping `exBody5`. -/
def exDoc5 : Node := .elem "[document]" [] [exBody5]

/-- A document with a denylisted `script` subtree next to real content,
including an anchor inside the script. -/
def exDoc3 : Node :=
  .elem "[document]" [] [.elem "body" []
    [.elem "script" []
       [.text "var x = 1;",
        .elem "a" [("href", "https://twitter.com/hidden")] [.text "spam"]],
     .elem "p" [] [.text "Visible"]]]

/-- The surviving paragraph of `exDoc3`. -/
def exP3 : Node := .elem "p" [] [.text "Visible"]

/-- A whitespace-only heading followed by real text:
`<body><h1> </h1><p>x</p></body>`. -/
def exBody10 : Node :=
  .elem "body" [] [.elem "h1" [] [.text " "], .elem "p" [] [.text "x"]]

/-- The whitespace-only heading of `exBody10`. -/
def exH10 : Node := .elem "h1" [] [.text " "]

/-- A container nested inside a container: `<body><div><p>Hi</p></div></body>`. -/
def exBody6 : Node := .elem "body" [] [.elem "div" [] [.elem "p" [] [.text "Hi"]]]

/-- The outer container of `exBody6`. -/
def exDiv6 : Node := .elem "div" [] [.elem "p" [] [.text "Hi"]]

/-- The inner container of `exBody6`. -/
def exP6 : Node := .elem "p" [] [.text "Hi"]

/-- A body with one heading followed by text: `<body><h1>A</h1><p>x</p></body>`. -/
def exBody1 : Node :=
  .elem "body" [] [.elem "h1" [] [.text "A"], .elem "p" [] [.text "x"]]

/-- The heading of `exBody1`. -/
def exH1 : Node := .elem "h1" [] [.text "A"]

/-- A body with two anchors sharing one href plus a second social link,
to exercise deduplication and sorting. -/
def exBody4 : Node :=
  .elem "body" []
    [.elem "a" [("href", "https://twitter.com/x")] [.text "a1"],
     .elem "a" [("href", "https://twitter.com/x")] [.text "a2"],
     .elem "a" [("href", "https://facebook.com/y")] [.text "a3"]]

/-- Document wrapping `exBody4`. -/
def exDoc4 : Node := .elem "[document]" [] [exBody4]

/-- Result of executing a Python function: a normal return value or an
exception escaping the call. -/
inductive PyOutcome where
  | returns (s : String)
  | raises (exn : String)
deriving DecidableEq

/-- The names bound at module level in app.py (imports, configuration
constants, Azure clients, chat state, and the function definitions
themselves).  Python resolves a free variable inside a function against
this set (then builtins); a miss raises `NameError`. -/
def moduleGlobals : List String :=
  ["st", "requests", "BeautifulSoup", "urlparse", "CosmosClient",
   "PartitionKey", "AzureOpenAI", "uuid", "pd", "json", "os", "tiktoken",
   "BytesIO", "COSMOS_ENDPOINT", "COSMOS_KEY", "COSMOS_DB_NAME",
   "COSMOS_CONTAINER_NAME", "COSMOS_PARTITION_KEY", "AZURE_OPENAI_ENDPOINT",
   "AZURE_OPENAI_KEY", "AZURE_OPENAI_EMBEDDING_DEPLOYMENT",
   "AZURE_OPENAI_CHAT_DEPLOYMENT", "OPENAI_API_VERSION", "cosmos_client",
   "database", "container", "openai_client", "session_id", "chat_history",
   "system_message", "extract_visible_text", "clean_and_structure_text",
   "save_to_cosmos", "create_download_buttons", "user_input"]

/-- `clean_and_structure_text` (app.py lines 121-150).  Its first
statement, `model_name = GPT_DEPLOYMENT_NAME` (line 122), reads the free
variable `GPT_DEPLOYMENT_NAME`, which is not bound at module level (nor a
builtin), so the lookup raises `NameError` outside every `try` block.
Only if that name resolved would control reach the tokenizer/truncation
step (an external `tiktoken` collaborator, which does not alter the
returned text's error discipline) and then the guarded chat-completion
call of lines 138-150, whose `except Exception` clause converts any
failure of the LLM collaborator (modelled as `Except String String`)
into an `ERROR:`-prefixed return. -/
def clean_and_structure_text (llm : Except String String) (raw_text : String) :
    PyOutcome :=
  if moduleGlobals.contains "GPT_DEPLOYMENT_NAME" then
    match llm with
    | .ok content => .returns (pyStrip content)
    | .error e => .returns ("ERROR: GPT processing failed: " ++ e)
  else .raises "NameError: name 'GPT_DEPLOYMENT_NAME' is not defined"

/-- Result of one click of the Extract button: either the handler runs
to completion with a response string, or an exception escapes it; the
flag records whether `extract_visible_text` (and with it the network
fetch it performs) was invoked. -/
inductive HandlerOutcome where
  | completed (response : String) (extractCalled : Bool)
  | raised (exn : String) (extractCalled : Bool)
deriving DecidableEq

/-- The button handler of app.py lines 184-206: validate the URL prefix
before anything else, otherwise scrape, branch on the `"ERROR"` string
prefix of the scrape result, and only in the success branch call
`clean_and_structure_text`. -/
def handleExtractClick (fetch : FetchOutcome) (llm : Except String String)
    (user_input : String) : HandlerOutcome :=
  if !pyStartsWith user_input "http" then
    .completed "❌ Please enter a valid URL starting with http or https." false
  else
    let raw := extract_visible_text fetch
    if pyStartsWith raw "ERROR" then .completed raw true
    else
      match clean_and_structure_text llm raw with
      | .returns s => .completed s true
      | .raises e => .raised e true

/-! ### Helper lemmas: the noise filter -/

theorem isNoise_removeNoise (n : Node) : isNoise (removeNoise n) = isNoise n := by
  cases n <;> rfl

theorem anchorHref_removeNoise (n : Node) : anchorHref (removeNoise n) = anchorHref n := by
  cases n <;> rfl

theorem descList_append (l₁ l₂ : List Node) :
    descList (l₁ ++ l₂) = descList l₁ ++ descList l₂ := by
  induction l₁ with
  | nil => rfl
  | cons c cs ih => simp [descList, ih, List.append_assoc]

mutual
theorem removeNoise_clean : ∀ (n : Node), ∀ m ∈ descendants (removeNoise n),
    isNoise m = false
  | .text _ => by simp [removeNoise, descendants]
  | .elem t a cs => by
    simp only [removeNoise, descendants]
    exact removeNoiseList_clean cs
termination_by structural n => n
theorem removeNoiseList_clean : ∀ (ns : List Node), ∀ m ∈ descList (removeNoiseList ns),
    isNoise m = false
  | [] => by simp [removeNoiseList, descList]
  | c :: cs => by
    intro m hm
    rw [removeNoiseList] at hm
    by_cases hn : isNoise c = true
    · rw [if_pos hn, List.nil_append] at hm
      exact removeNoiseList_clean cs m hm
    · rw [if_neg hn, List.singleton_append, descList] at hm
      rcases List.mem_cons.mp hm with rfl | hm'
      · rw [isNoise_removeNoise]
        exact Bool.not_eq_true _ |>.mp hn
      · rcases List.mem_append.mp hm' with h1 | h2
        · exact removeNoise_clean c m h1
        · exact removeNoiseList_clean cs m h2
termination_by structural ns => ns
end

mutual
theorem strippedStrings_removeNoise :
    ∀ (n : Node), strippedStrings (removeNoise n) = cleanStrings n
  | .text s => rfl
  | .elem t a cs => by
    simp only [removeNoise, strippedStrings, cleanStrings]
    exact strippedStringsList_removeNoise cs
termination_by structural n => n
theorem strippedStringsList_removeNoise :
    ∀ (ns : List Node), strippedStringsList (removeNoiseList ns) = cleanStringsList ns
  | [] => rfl
  | c :: cs => by
    rw [removeNoiseList, cleanStringsList]
    by_cases hn : isNoise c = true
    · rw [if_pos hn, if_pos hn, List.nil_append, List.nil_append]
      exact strippedStringsList_removeNoise cs
    · rw [if_neg hn, if_neg hn, List.singleton_append, strippedStringsList,
        strippedStrings_removeNoise c, strippedStringsList_removeNoise cs]
termination_by structural ns => ns
end

mutual
theorem hrefs_removeNoise :
    ∀ (n : Node), (descendants (removeNoise n)).filterMap anchorHref = cleanHrefsNode n
  | .text _ => rfl
  | .elem t a cs => by
    simp only [removeNoise, descendants, cleanHrefsNode]
    exact hrefsList_removeNoise cs
termination_by structural n => n
theorem hrefsList_removeNoise :
    ∀ (ns : List Node), (descList (removeNoiseList ns)).filterMap anchorHref = cleanHrefsList ns
  | [] => rfl
  | c :: cs => by
    rw [removeNoiseList, cleanHrefsList]
    by_cases hn : isNoise c = true
    · rw [if_pos hn, if_pos hn, List.nil_append, List.nil_append]
      exact hrefsList_removeNoise cs
    · rw [if_neg hn, if_neg hn, List.singleton_append, descList, List.filterMap_cons,
        anchorHref_removeNoise]
      cases anchorHref c <;>
        simp [List.filterMap_append, hrefs_removeNoise c, hrefsList_removeNoise cs,
          List.append_assoc]
termination_by structural ns => ns
end

/-! ### Helper lemmas: the walker as a segment decomposition -/

theorem flushes_some (h : Node) (blk : List String) :
    flushes (some h) blk = if blk.isEmpty then [] else [headingBlock h blk] := by
  cases blk <;> rfl

theorem flushes_none (blk : List String) : flushes none blk = [] := by
  cases blk <;> rfl

theorem finalBlocks_foldl (ns : List Node) :
    ∀ (acc : List String) (cur : Option Node) (blk : List String),
      finalBlocks (ns.foldl walkStep ⟨acc, cur, blk⟩) = acc ++ walkFrom cur blk ns := by
  induction ns with
  | nil => intro acc cur blk; rfl
  | cons n ns ih =>
    intro acc cur blk
    by_cases hH : isHeading n = true
    · simp only [List.foldl_cons, walkStep, hH, if_true, ih, walkFrom, List.append_assoc]
    · by_cases hC : isContainer n = true
      · by_cases ht : get_text_strip n = ""
        · simp only [List.foldl_cons, walkStep, hH, hC, ht, if_true, if_false,
            Bool.false_eq_true, ih, walkFrom]
        · simp only [List.foldl_cons, walkStep, hH, hC, ht, if_true, if_false,
            Bool.false_eq_true, ih, walkFrom]
      · simp only [List.foldl_cons, walkStep, hH, hC, if_false, Bool.false_eq_true,
          ih, walkFrom]

theorem contentBlocks_eq_walkFrom (body : Node) :
    contentBlocks body = walkFrom none [] (descendants body) := by
  unfold contentBlocks
  rw [finalBlocks_foldl]
  exact List.nil_append _

theorem emitSegs_cons (n : Node) (ts : List String) (segs : List (Node × List String)) :
    emitSegs ((n, ts) :: segs) =
      (if ts.isEmpty then [] else [headingBlock n ts]) ++ emitSegs segs := by
  by_cases h : ts.isEmpty <;> simp [emitSegs, h]

theorem walkFrom_some (ns : List Node) :
    ∀ (h : Node) (blk : List String),
      walkFrom (some h) blk ns =
        (if (blk ++ preTexts ns).isEmpty then []
         else [headingBlock h (blk ++ preTexts ns)]) ++ emitSegs (headSegs ns) := by
  induction ns with
  | nil =>
    intro h blk
    cases blk <;> simp [walkFrom, finalFlush, preTexts, headSegs, emitSegs]
  | cons n ns ih =>
    intro h blk
    by_cases hH : isHeading n = true
    · simp only [walkFrom, hH, if_true, ih n [], preTexts, headSegs, emitSegs_cons,
        flushes_some, List.nil_append, List.append_nil, List.append_assoc]
    · by_cases hC : isContainer n = true
      · by_cases ht : get_text_strip n = ""
        · simp only [walkFrom, hH, hC, ht, if_true, if_false, Bool.false_eq_true, ih,
            preTexts, containerText?, headSegs]
        · simp only [walkFrom, hH, hC, ht, if_true, if_false, Bool.false_eq_true, ih,
            preTexts, containerText?, headSegs, List.append_assoc, List.singleton_append]
      · simp only [walkFrom, hH, hC, if_false, Bool.false_eq_true, ih, preTexts,
          containerText?, headSegs]

theorem walkFrom_none (ns : List Node) :
    ∀ (blk : List String),
      walkFrom none blk ns =
        if (headSegs ns).isEmpty then
          (if (blk ++ preTexts ns).isEmpty then []
           else [pyStrip (String.intercalate "\n" (blk ++ preTexts ns))])
        else emitSegs (headSegs ns) := by
  induction ns with
  | nil =>
    intro blk
    cases blk <;> simp [walkFrom, finalFlush, preTexts, headSegs]
  | cons n ns ih =>
    intro blk
    by_cases hH : isHeading n = true
    · simp only [walkFrom, hH, if_true, flushes_none, List.nil_append, headSegs,
        walkFrom_some ns n [], preTexts, List.isEmpty_cons, Bool.false_eq_true,
        if_false, emitSegs_cons]
    · by_cases hC : isContainer n = true
      · by_cases ht : get_text_strip n = ""
        · simp only [walkFrom, hH, hC, ht, if_true, if_false, Bool.false_eq_true, ih,
            preTexts, containerText?, headSegs]
        · simp only [walkFrom, hH, hC, ht, if_true, if_false, Bool.false_eq_true, ih,
            preTexts, containerText?, headSegs, List.append_assoc, List.singleton_append]
      · simp only [walkFrom, hH, hC, if_false, Bool.false_eq_true, ih, preTexts,
          containerText?, headSegs]

theorem headingBlock_blank (h : Node) (blk : List String)
    (hh : get_text_strip h = "") :
    headingBlock h blk = "===  ===\n" ++ pyStrip (String.intercalate " " blk) := by
  unfold headingBlock
  rw [hh]
  apply String.ext
  simp only [String.data_append]
  simp [show (pyUpper "").data = [] from rfl]

theorem contentBlocks_emitSegs (body : Node)
    (hne : headSegs (descendants body) ≠ []) :
    contentBlocks body = emitSegs (headSegs (descendants body)) := by
  rw [contentBlocks_eq_walkFrom, walkFrom_none]
  cases hs : headSegs (descendants body) with
  | nil => exact absurd hs hne
  | cons p ps => simp

/-! ### Claim theorems -/

/-- C1: whenever the body's descendant traversal contains at least one
heading, the walker's content blocks are exactly one formatted block per
heading whose following container text is non-empty, in document order,
each titled `=== <stripped uppercased heading text> ===`; a heading whose
following container text is empty contributes no block, and when every
heading has non-empty following text the output has exactly one block per
heading. -/
theorem c1_heading_blocks (body : Node)
    (hne : headSegs (descendants body) ≠ []) :
    contentBlocks body =
      ((headSegs (descendants body)).filter (fun p => !p.2.isEmpty)).map
        (fun p => "=== " ++ pyUpper (get_text_strip p.1) ++ " ===\n" ++
          pyStrip (String.intercalate " " p.2)) ∧
    ((∀ p ∈ headSegs (descendants body), p.2 ≠ []) →
      (contentBlocks body).length = (headSegs (descendants body)).length) := by
  have hmain := contentBlocks_emitSegs body hne
  refine ⟨by rw [hmain]; rfl, fun hall => ?_⟩
  have hfil : (headSegs (descendants body)).filter (fun p => !p.2.isEmpty) =
      headSegs (descendants body) := by
    apply List.filter_eq_self.mpr
    intro p hp
    cases h2 : p.2 with
    | nil => exact absurd h2 (hall p hp)
    | cons a l => rfl
  rw [hmain]
  unfold emitSegs
  rw [hfil, List.length_map]

/-- Witness for C1 at `<body><h1>A</h1><p>x</p></body>`: one heading
with non-empty following text yields exactly one block, titled
`=== A ===`. -/
theorem c1_witness :
    headSegs (descendants exBody1) = [(exH1, ["x"])] ∧
    contentBlocks exBody1 = ["=== A ===\nx"] ∧
    (contentBlocks exBody1).length = 1 := by
  have hseg : headSegs (descendants exBody1) = [(exH1, ["x"])] := rfl
  have h := c1_heading_blocks exBody1 (by rw [hseg]; exact List.cons_ne_nil _ _)
  refine ⟨hseg, ?_, ?_⟩
  · rw [h.1]; decide
  · have h2 := h.2 (by
      rw [hseg]
      intro p hp
      rcases List.mem_singleton.mp hp with rfl
      simp)
    rw [h2, hseg]
    rfl

/-- C2: the spec's worked example evaluates to exactly the expected
structured document. -/
theorem c2_worked_example :
    extract_visible_text (.success exDoc2) =
      "=== OVERVIEW ===\nHello World\n\n=== SOCIAL MEDIA LINKS ===\nhttps://twitter.com/x" := by
  decide

/-- C3: noise removal leaves no denylisted element among the filtered
document's descendants, the filtered tree's text fragments are exactly
those of the original outside denylisted subtrees, and the link
collector sees exactly the anchors outside denylisted subtrees — so no
text or href of a denylisted subtree can reach the output, which is
computed from the filtered tree only. -/
theorem c3_noise_excised (doc : Node) :
    (∀ m ∈ descendants (removeNoise doc), isNoise m = false) ∧
    strippedStrings (removeNoise doc) = cleanStrings doc ∧
    social_links (removeNoise doc) =
      ((cleanHrefsNode doc).filter hrefIsSocial).map pyStrip := by
  refine ⟨removeNoise_clean doc, strippedStrings_removeNoise doc, ?_⟩
  unfold social_links
  rw [hrefs_removeNoise doc]

/-- Witness for C3 at a document with a `script` subtree containing text
and a social anchor: the surviving paragraph is not noise, the filtered
text is only the visible text, and no link survives. -/
theorem c3_witness :
    isNoise exP3 = false ∧
    strippedStrings (removeNoise exDoc3) = ["Visible"] ∧
    social_links (removeNoise exDoc3) = [] := by
  have h := c3_noise_excised exDoc3
  refine ⟨h.1 exP3 ?_, ?_, ?_⟩
  · rw [show descendants (removeNoise exDoc3) =
      [Node.elem "body" [] [exP3], exP3, Node.text "Visible"] from rfl]
    exact List.mem_cons_of_mem _ (List.mem_cons_self _ _)
  · rw [h.2.1]; decide
  · rw [h.2.2]; decide

/-- C5: when the body's descendant traversal contains no heading but
does contain non-empty container text, the walker emits exactly one
unlabeled block: the collected texts joined with newlines (unlike the
space-join used for heading bodies) and stripped. -/
theorem c5_residual_block (body : Node)
    (h0 : headSegs (descendants body) = [])
    (h1 : preTexts (descendants body) ≠ []) :
    contentBlocks body =
      [pyStrip (String.intercalate "\n" (preTexts (descendants body)))] := by
  rw [contentBlocks_eq_walkFrom, walkFrom_none, h0]
  cases hp : preTexts (descendants body) with
  | nil => exact absurd hp h1
  | cons a l => simp

/-- Witness for C5 at `<body><p>Just text</p></body>`: the output is the
bare line `Just text`, with no heading marker, and the full pipeline
returns exactly that line. -/
theorem c5_witness :
    headSegs (descendants exBody5) = [] ∧
    preTexts (descendants exBody5) = ["Just text"] ∧
    contentBlocks exBody5 = ["Just text"] ∧
    extract_visible_text (.success exDoc5) = "Just text" := by
  refine ⟨rfl, rfl, ?_, by decide⟩
  rw [c5_residual_block exBody5 rfl (by decide)]
  decide

/-- C10: a heading whose own text strips to empty but whose following
container text is non-empty still produces a block, whose title line is
the blank `===  ===`: the flush guard checks only the body, never the
heading text. -/
theorem c10_blank_heading_block (body h : Node) (ts : List String)
    (hmem : (h, ts) ∈ headSegs (descendants body)) (hts : ts ≠ [])
    (hh : get_text_strip h = "") :
    ("===  ===\n" ++ pyStrip (String.intercalate " " ts)) ∈ contentBlocks body := by
  have hne : headSegs (descendants body) ≠ [] := List.ne_nil_of_mem hmem
  rw [contentBlocks_emitSegs body hne]
  unfold emitSegs
  refine List.mem_map.mpr ⟨(h, ts), List.mem_filter.mpr ⟨hmem, ?_⟩, ?_⟩
  · cases ts with
    | nil => exact absurd rfl hts
    | cons a l => rfl
  · exact headingBlock_blank h ts hh

/-- Witness for C10 at `<body><h1> </h1><p>x</p></body>`: the emitted
block is exactly `===  ===\nx`. -/
theorem c10_witness :
    (exH10, ["x"]) ∈ headSegs (descendants exBody10) ∧
    "===  ===\nx" ∈ contentBlocks exBody10 := by
  have hmem : (exH10, ["x"]) ∈ headSegs (descendants exBody10) := by
    rw [show headSegs (descendants exBody10) = [(exH10, ["x"])] from rfl]
    exact List.mem_singleton.mpr rfl
  refine ⟨hmem, ?_⟩
  have h := c10_blank_heading_block exBody10 exH10 ["x"] hmem
    (by decide) (by decide)
  rw [show ("===  ===\n" ++ pyStrip (String.intercalate " " ["x"])) = "===  ===\nx"
    from by decide] at h
  exact h

/-! ### Helper lemmas: the lexicographic order used by `sorted` -/

theorem charListLE_cons_iff (a b : Char) (as bs : List Char) :
    charListLE (a :: as) (b :: bs) = true ↔
      a.toNat < b.toNat ∨ (a.toNat = b.toNat ∧ charListLE as bs = true) := by
  by_cases h1 : a.toNat < b.toNat
  · simp [charListLE, h1]
  · by_cases h2 : b.toNat < a.toNat
    · simp [charListLE, h1, h2, show a.toNat ≠ b.toNat from by omega]
    · simp [charListLE, h1, h2, show a.toNat = b.toNat from by omega]

theorem charListLE_total (as : List Char) :
    ∀ bs, charListLE as bs = true ∨ charListLE bs as = true := by
  induction as with
  | nil => intro bs; cases bs <;> exact .inl rfl
  | cons a as ih =>
    intro bs
    cases bs with
    | nil => exact .inr rfl
    | cons b bs =>
      rw [charListLE_cons_iff, charListLE_cons_iff]
      rcases Nat.lt_trichotomy a.toNat b.toNat with h | h | h
      · exact .inl (.inl h)
      · rcases ih bs with hl | hr
        · exact .inl (.inr ⟨h, hl⟩)
        · exact .inr (.inr ⟨h.symm, hr⟩)
      · exact .inr (.inl h)

theorem charListLE_trans (as : List Char) :
    ∀ bs cs, charListLE as bs = true → charListLE bs cs = true →
      charListLE as cs = true := by
  induction as with
  | nil => intro bs cs _ _; cases cs <;> rfl
  | cons a as ih =>
    intro bs cs hab hbc
    cases bs with
    | nil => simp [charListLE] at hab
    | cons b bs =>
      cases cs with
      | nil => simp [charListLE] at hbc
      | cons c cs =>
        rw [charListLE_cons_iff] at hab hbc ⊢
        rcases hab with h1 | ⟨h1, h1t⟩
        · rcases hbc with h2 | ⟨h2, h2t⟩
          · exact .inl (by omega)
          · exact .inl (by omega)
        · rcases hbc with h2 | ⟨h2, h2t⟩
          · exact .inl (by omega)
          · exact .inr ⟨by omega, ih bs cs h1t h2t⟩

instance : IsTotal String pyLE := ⟨fun s t => charListLE_total s.data t.data⟩

instance : IsTrans String pyLE := ⟨fun a b c => charListLE_trans a.data b.data c.data⟩

/-- C4: the rendered social-link list is sorted, duplicate-free, contains
exactly the collected matching hrefs (stripped, no other normalization),
and when non-empty is rendered one link per line under the synthetic
`=== SOCIAL MEDIA LINKS ===` heading appended after all content blocks. -/
theorem c4_social_links (doc : Node) :
    List.Sorted pyLE (sortedSocialLinks (removeNoise doc)) ∧
    (sortedSocialLinks (removeNoise doc)).Nodup ∧
    (∀ s, s ∈ sortedSocialLinks (removeNoise doc) ↔
      s ∈ social_links (removeNoise doc)) ∧
    (∀ body, findBody (removeNoise doc) = some body →
      extract_visible_text (.success doc) =
        String.intercalate "\n\n"
          ((contentBlocks body ++
            (if (sortedSocialLinks (removeNoise doc)).isEmpty then []
             else ["=== SOCIAL MEDIA LINKS ===\n" ++
               String.intercalate "\n" (sortedSocialLinks (removeNoise doc))])).filter
            (fun b => b ≠ ""))) := by
  refine ⟨List.sorted_insertionSort pyLE _, ?_, ?_, ?_⟩
  · exact ((List.perm_insertionSort pyLE _).symm).nodup (List.nodup_dedup _)
  · intro s
    unfold sortedSocialLinks
    rw [(List.perm_insertionSort pyLE _).mem_iff, List.mem_dedup]
  · intro body hb
    simp [extract_visible_text, scrapeDoc, assembleDoc, hb, socialTail]

/-- Witness for C4: two anchors with the identical twitter href plus one
facebook href yield two deduplicated entries, rendered sorted in the
final block. -/
theorem c4_witness :
    sortedSocialLinks (removeNoise exDoc4) =
      ["https://facebook.com/y", "https://twitter.com/x"] ∧
    (sortedSocialLinks (removeNoise exDoc4)).Nodup ∧
    extract_visible_text (.success exDoc4) =
      "=== SOCIAL MEDIA LINKS ===\nhttps://facebook.com/y\nhttps://twitter.com/x" := by
  refine ⟨by decide, (c4_social_links exDoc4).2.1, ?_⟩
  rw [(c4_social_links exDoc4).2.2.2 exBody4 rfl]
  decide

/-! ### Helper lemmas: nesting of containers (claim C6) -/

mutual
theorem cons_desc_infix_node : ∀ (m n : Node), n ∈ descendants m →
    n :: descendants n <:+: descendants m
  | .text _, n => by simp [descendants]
  | .elem t a cs, n => by
    simp only [descendants]
    exact cons_desc_infix_list cs n
termination_by structural m => m
theorem cons_desc_infix_list : ∀ (ns : List Node) (n : Node), n ∈ descList ns →
    n :: descendants n <:+: descList ns
  | [], n => by simp [descList]
  | c :: cs, n => by
    intro hmem
    rw [descList] at hmem ⊢
    rcases List.mem_cons.mp hmem with rfl | hm
    · exact ⟨[], descList cs, by simp⟩
    · rcases List.mem_append.mp hm with h1 | h2
      · exact (cons_desc_infix_node c n h1).trans ⟨[c], descList cs, by simp⟩
      · exact (cons_desc_infix_list cs n h2).trans ⟨c :: descendants c, [], by simp⟩
termination_by structural ns => ns
end

mutual
theorem stripped_infix_node : ∀ (m n : Node), n ∈ descendants m →
    strippedStrings n <:+: strippedStrings m
  | .text _, n => by simp [descendants]
  | .elem t a cs, n => by
    simp only [descendants, strippedStrings]
    exact stripped_infix_list cs n
termination_by structural m => m
theorem stripped_infix_list : ∀ (ns : List Node) (n : Node), n ∈ descList ns →
    strippedStrings n <:+: strippedStringsList ns
  | [], n => by simp [descList]
  | c :: cs, n => by
    intro hmem
    rw [descList] at hmem
    rw [strippedStringsList]
    rcases List.mem_cons.mp hmem with rfl | hm
    · exact ⟨[], strippedStringsList cs, by simp⟩
    · rcases List.mem_append.mp hm with h1 | h2
      · exact (stripped_infix_node c n h1).trans ⟨[], strippedStringsList cs, by simp⟩
      · exact (stripped_infix_list cs n h2).trans ⟨strippedStrings c, [], by simp⟩
termination_by structural ns => ns
end

theorem foldl_append_data (l : List String) :
    ∀ (s : String), (l.foldl (fun r t => r ++ t) s).data =
      s.data ++ (l.map String.data).flatten := by
  induction l with
  | nil => intro s; simp
  | cons a l ih => intro s; simp [List.foldl_cons, ih, List.append_assoc]

theorem join_data (l : List String) :
    (String.join l).data = (l.map String.data).flatten := by
  simp only [String.join]
  rw [foldl_append_data]
  rfl

theorem flatten_infix {l1 l2 : List (List Char)} (h : l1 <:+: l2) :
    l1.flatten <:+: l2.flatten := by
  obtain ⟨s, t, rfl⟩ := h
  exact ⟨s.flatten, t.flatten, by simp⟩

theorem get_text_strip_infix (m n : Node) (h : n ∈ descendants m) :
    (get_text_strip n).data <:+: (get_text_strip m).data := by
  unfold get_text_strip
  rw [join_data, join_data]
  exact flatten_infix ((stripped_infix_node m n h).map String.data)

theorem ne_empty_data {s : String} (h : s ≠ "") : s.data ≠ [] := by
  intro hd
  exact h (String.ext hd)

theorem isHeading_false_of_isContainer (n : Node) (h : isContainer n = true) :
    isHeading n = false := by
  cases n with
  | text s => rfl
  | elem t a cs =>
    have ht : t ∈ container_tags := by simpa [isContainer] using h
    fin_cases ht <;> rfl

theorem walkStep_container (st : WalkState) (n : Node) (hc : isContainer n = true)
    (ht : get_text_strip n ≠ "") :
    walkStep st n =
      ⟨st.content_blocks, st.current_heading, st.block ++ [get_text_strip n]⟩ := by
  unfold walkStep
  rw [isHeading_false_of_isContainer n hc]
  simp [hc, ht]

/-- C6: a text-bearing container nested inside another text-bearing
container is visited separately by the traversal; each visit appends the
element's own text to the pending block, so the inner container's text
occurs (as a contiguous substring of an appended text) in at least two
distinct appended entries — the duplication is preserved, not removed. -/
theorem c6_nested_containers (body outer inner : Node)
    (ho : outer ∈ descendants body) (hi : inner ∈ descendants outer)
    (hco : isContainer outer = true) (hci : isContainer inner = true)
    (ht : get_text_strip inner ≠ "") :
    inner ∈ descendants body ∧
    (∀ st : WalkState, walkStep st outer =
      ⟨st.content_blocks, st.current_heading, st.block ++ [get_text_strip outer]⟩) ∧
    (∀ st : WalkState, walkStep st inner =
      ⟨st.content_blocks, st.current_heading, st.block ++ [get_text_strip inner]⟩) ∧
    2 ≤ (appendedTexts (descendants body)).countP
        (fun t => decide ((get_text_strip inner).data <:+: t.data)) := by
  have hInf : (get_text_strip inner).data <:+: (get_text_strip outer).data :=
    get_text_strip_infix outer inner hi
  have htO : get_text_strip outer ≠ "" := by
    intro h0
    apply ne_empty_data ht
    rw [h0] at hInf
    exact List.sublist_nil.mp hInf.sublist
  refine ⟨(cons_desc_infix_node body outer ho).subset (List.mem_cons_of_mem _ hi),
    fun st => walkStep_container st outer hco htO,
    fun st => walkStep_container st inner hci ht, ?_⟩
  have hsub : List.Sublist (appendedTexts (outer :: descendants outer))
      (appendedTexts (descendants body)) :=
    ((cons_desc_infix_node body outer ho).sublist).filterMap containerText?
  have hApp : appendedTexts (outer :: descendants outer) =
      get_text_strip outer :: appendedTexts (descendants outer) := by
    unfold appendedTexts
    rw [List.filterMap_cons,
      show containerText? outer = some (get_text_strip outer) from by
        unfold containerText?; rw [hco]; simp [htO]]
  have hmemIn : get_text_strip inner ∈ appendedTexts (descendants outer) :=
    List.mem_filterMap.mpr ⟨inner, hi, by unfold containerText?; rw [hci]; simp [ht]⟩
  have h1 : 0 < (appendedTexts (descendants outer)).countP
      (fun t => decide ((get_text_strip inner).data <:+: t.data)) :=
    List.countP_pos_iff.mpr ⟨get_text_strip inner, hmemIn, by simp [List.infix_refl]⟩
  have h2 : 2 ≤ (appendedTexts (outer :: descendants outer)).countP
      (fun t => decide ((get_text_strip inner).data <:+: t.data)) := by
    rw [hApp, List.countP_cons_of_pos _ _ (by simpa using hInf)]
    omega
  exact le_trans h2 (hsub.countP_le _)

/-- Witness for C6 at `<body><div><p>Hi</p></div></body>`: the nested
paragraph's text `Hi` is appended twice (once through the div, once
through the p itself). -/
theorem c6_witness :
    exP6 ∈ descendants exBody6 ∧
    2 ≤ (appendedTexts (descendants exBody6)).countP
        (fun t => decide ((get_text_strip exP6).data <:+: t.data)) := by
  have ho : exDiv6 ∈ descendants exBody6 := by
    rw [show descendants exBody6 = [exDiv6, exP6, Node.text "Hi"] from rfl]
    exact List.mem_cons_self _ _
  have hi : exP6 ∈ descendants exDiv6 := by
    rw [show descendants exDiv6 = [exP6, Node.text "Hi"] from rfl]
    exact List.mem_cons_self _ _
  have h := c6_nested_containers exBody6 exDiv6 exP6 ho hi rfl rfl (by decide)
  exact ⟨h.1, h.2.2.2⟩

/-! ### Error-channel claims -/

theorem pyStartsWith_append (p s t : String) (h : p.data <+: s.data) :
    pyStartsWith (s ++ t) p = true := by
  unfold pyStartsWith
  rw [String.data_append]
  exact List.isPrefixOf_iff_prefix.mpr (h.trans (List.prefix_append _ _))

/-- C7: whenever the fetch/parse boundary fails — a request exception, any
other exception, or a parsed page with no `body` — `extract_visible_text`
returns (never raises) a string starting with `ERROR:`, and the caller's
`raw.startswith("ERROR")` branch then shows that string verbatim without
invoking the LLM step. -/
theorem c7_error_channel (r : FetchOutcome) (hf : fetchFailed r = true) :
    pyStartsWith (extract_visible_text r) "ERROR:" = true ∧
    (∀ (llm : Except String String) (url : String),
      pyStartsWith url "http" = true →
        handleExtractClick r llm url = .completed (extract_visible_text r) true) := by
  have herr : pyStartsWith (extract_visible_text r) "ERROR:" = true := by
    cases r with
    | success doc =>
      simp only [fetchFailed] at hf
      have hb : findBody (removeNoise doc) = none := Option.isNone_iff_eq_none.mp hf
      simp only [extract_visible_text, scrapeDoc, assembleDoc, hb]
      decide
    | requestError e =>
      exact pyStartsWith_append "ERROR:" "ERROR: Failed to scrape the page: " e
        (by decide)
    | otherError e =>
      exact pyStartsWith_append "ERROR:"
        "ERROR: An unexpected error occurred during scraping: " e (by decide)
  refine ⟨herr, fun llm url hurl => ?_⟩
  have hE : pyStartsWith (extract_visible_text r) "ERROR" = true := by
    unfold pyStartsWith at herr ⊢
    exact List.isPrefixOf_iff_prefix.mpr
      ((by decide : "ERROR".data <+: "ERROR:".data).trans
        (List.isPrefixOf_iff_prefix.mp herr))
  simp [handleExtractClick, hurl, hE]

/-- Witness for C7 at a network failure and a valid URL: the error string
is surfaced verbatim and the LLM step is never reached. -/
theorem c7_witness :
    fetchFailed (.requestError "timeout") = true ∧
    pyStartsWith (extract_visible_text (.requestError "timeout")) "ERROR:" = true ∧
    handleExtractClick (.requestError "timeout") (.ok "cleaned") "http://example.com" =
      .completed (extract_visible_text (.requestError "timeout")) true := by
  refine ⟨rfl, (c7_error_channel (.requestError "timeout") rfl).1, ?_⟩
  exact (c7_error_channel (.requestError "timeout") rfl).2 (.ok "cleaned")
    "http://example.com" (by decide)

/-- C8 (code bug): every invocation of `clean_and_structure_text` raises
`NameError` at its first statement, because `GPT_DEPLOYMENT_NAME` is not
bound anywhere in the module — so no failure of the LLM step can be
surfaced as the `ERROR:`-prefixed string of lines 149-150, and the
exception propagates to the caller. -/
theorem c8_gpt_name_error (llm : Except String String) (raw_text : String) :
    clean_and_structure_text llm raw_text =
      .raises "NameError: name \'GPT_DEPLOYMENT_NAME\' is not defined" := by
  rfl

/-- C9: a URL that does not start with `http` is rejected with the
validation message before anything else: `extract_visible_text` — and
with it the network fetch it performs — is never invoked. -/
theorem c9_url_validation (fetch : FetchOutcome) (llm : Except String String)
    (url : String) (h : pyStartsWith url "http" = false) :
    handleExtractClick fetch llm url =
      .completed "❌ Please enter a valid URL starting with http or https." false := by
  simp [handleExtractClick, h]

/-- Witness for C9 at `ftp://example.com`: rejected without calling the
extractor, whatever the network or LLM would have done. -/
theorem c9_witness :
    pyStartsWith "ftp://example.com" "http" = false ∧
    handleExtractClick (.requestError "net") (.ok "x") "ftp://example.com" =
      .completed "❌ Please enter a valid URL starting with http or https." false :=
  ⟨by decide, c9_url_validation (.requestError "net") (.ok "x") "ftp://example.com"
    (by decide)⟩

end AIWebScraper
